import Mathlib

/-!
Verification of the Reliability & Validity Analysis Engine
(`src/reliability_analysis.py` of the `tesis-uiix` repository).

The engine operates on a pandas DataFrame of survey responses.  We embed it
shallowly over exact rationals:

* A `Dataset` is an ordered list of named columns together with rows, where a
  row maps a column name to an optional rational value (`none` = missing cell,
  pandas `NaN`).
* pandas / numpy reductions (`var(ddof=1)`, `sum(axis=1)`, Pearson
  correlation, determinant) are translated into rational arithmetic.  Square
  roots (used inside Pearson correlations and standardisation) are modelled by
  `sqrtQ`, a rational square root that is exact on perfect squares; every
  theorem below either depends only on perfect-square instances (where `sqrtQ`
  agrees with the real square root) or is independent of the values `sqrtQ`
  produces.
* Transcendental / iterative library primitives that the source calls
  (`np.log`, `scipy.stats.chi2.cdf`, `scipy.stats.t.cdf`, `np.linalg.inv`,
  `np.linalg.eigvals`, `sklearn.decomposition.FactorAnalysis`) are abstracted
  into an `Oracle` record of function parameters; no theorem depends on their
  numeric behaviour beyond what the claim itself states.
* Python functions of the source return `None` on any internal exception (the
  whole body of every metric is wrapped in `try/except: return None`); the
  embeddings therefore return `Option` results, with `none` exactly on the
  argument configurations that raise in the source.

Division by zero: Lean's rational division is total with `x / 0 = 0`.  The
source's float arithmetic instead produces `inf`/`NaN` on zero denominators
(numpy warnings are suppressed by the module).  Whenever a theorem's content
touches such a degenerate denominator this is recorded explicitly in its
statement or documentation.
-/

attribute [local semireducible] Rat.add Rat.mul Rat.inv Rat.sub

namespace Reliability

/-- Floor integer square root, by exhaustive search (structurally
computable, so concrete instances evaluate inside the kernel). -/
def natSqrt (n : ℕ) : ℕ := ((List.range (n + 1)).filter fun k => k * k ≤ n).length - 1

/-- Rational square root modelling `np.sqrt` / the square roots hidden inside
`pandas.Series.corr` and `StandardScaler`: floor square roots of numerator
and denominator.  Exact whenever numerator and denominator are perfect
squares; no proof below depends on its value elsewhere. -/
def sqrtQ (q : ℚ) : ℚ := (natSqrt q.num.toNat : ℚ) / (natSqrt q.den : ℚ)

/-- Arithmetic mean of a list of rationals (`np.mean`). -/
def meanQ (xs : List ℚ) : ℚ := xs.sum / (xs.length : ℚ)

/-- Sample variance with `ddof = 1` (`pandas .var(ddof=1)`). -/
def svar (xs : List ℚ) : ℚ :=
  ((xs.map fun x => (x - meanQ xs) ^ 2).sum) / ((xs.length : ℚ) - 1)

/-- Population variance with `ddof = 0` (`np.var` default, used by
`StandardScaler` and for factor-score variances). -/
def popVar (xs : List ℚ) : ℚ :=
  ((xs.map fun x => (x - meanQ xs) ^ 2).sum) / (xs.length : ℚ)

/-- Sample covariance with `ddof = 1`, the normalisation used by pandas
inside `Series.corr` (the normalisation cancels in the correlation). -/
def scov (xs ys : List ℚ) : ℚ :=
  (((xs.zip ys).map fun p => (p.1 - meanQ xs) * (p.2 - meanQ ys)).sum) /
    ((xs.length : ℚ) - 1)

/-- Pearson correlation (`pandas.Series.corr`, `np.corrcoef`):
covariance divided by the product of the standard deviations. -/
def pearsonQ (xs ys : List ℚ) : ℚ :=
  scov xs ys / (sqrtQ (svar xs) * sqrtQ (svar ys))

/-- All strictly-upper-triangular position pairs of a list, in row-major
order — the pairs enumerated by `np.triu_indices_from(·, k=1)` and by the
double loop of `convergent_validity`. -/
def pairsUpper {α : Type} : List α → List (α × α)
  | [] => []
  | x :: xs => (xs.map fun y => (x, y)) ++ pairsUpper xs

/-- Entry access into a list-of-rows rational matrix (out-of-range reads 0;
all uses below are in range). -/
def mget (m : List (List ℚ)) (i j : ℕ) : ℚ := ((m.getD i []).getD j 0)

/-- Laplace expansion along the first row with an explicit recursion fuel
(structural recursion, so concrete instances evaluate inside the kernel);
the fuel is consumed once per removed row, so `fuel = number of rows`
always suffices. -/
def detAux : ℕ → List (List ℚ) → ℚ
  | _, [] => 1
  | 0, _ :: _ => 1
  | fuel + 1, r :: rs =>
    ((List.range r.length).map fun j =>
      (-1 : ℚ) ^ j * r.getD j 0 * detAux fuel (rs.map fun row => row.eraseIdx j)).sum

/-- Determinant by Laplace expansion along the first row, modelling
`np.linalg.det` (the determinant of the empty matrix is 1, as numpy's). -/
def detQ (m : List (List ℚ)) : ℚ := detAux m.length m

/-- A dataset: ordered column names plus rows; a row maps a column name to an
optional value (`none` models a pandas `NaN` cell / an absent column). -/
structure Dataset where
  cols : List String
  rows : List (String → Option ℚ)

/-- Build a row from an association list; keys absent from the list are
missing cells. -/
def rowOf (xs : List (String × ℚ)) : String → Option ℚ := fun s => xs.lookup s

/-- Model of `data[items].dropna()`: the rows that have a value in every selected
item (listwise / complete-case deletion). -/
def completeRows (d : Dataset) (items : List String) : List (String → Option ℚ) :=
  d.rows.filter fun r => items.all fun i => (r i).isSome

/-- The column of values of one item over the given (already complete)
rows; a missing cell reads 0, which never happens on complete rows. -/
def colValues (rows : List (String → Option ℚ)) (item : String) : List ℚ :=
  rows.map fun r => ((r item).getD 0)

/-- Model of `df_items.sum(axis=1)` for a single row: the row-wise sum score over the
selected items (an item appearing twice in the list is added twice, exactly
as pandas adds duplicated columns). -/
def rowScore (items : List String) (r : String → Option ℚ) : ℚ :=
  (items.map fun i => ((r i).getD 0)).sum

/-- Column-existence guard: `data[items]` raises `KeyError` (caught by each
metric's handler) unless every selected item is a dataset column. -/
def colsOK (d : Dataset) (items : List String) : Bool :=
  items.all fun i => d.cols.contains i

/-- Model of `_interpret_cronbach`: the ordinal interpretation table for Alpha and
Spearman-Brown coefficients, thresholds checked top-down. -/
def interpretCronbach (alpha : ℚ) : String :=
  if alpha ≥ 9/10 then "Elevada (Excelente)"
  else if alpha ≥ 8/10 then "Muy alta (Buena)"
  else if alpha ≥ 7/10 then "Alta (Aceptable)"
  else if alpha ≥ 6/10 then "Moderada (Cuestionable)"
  else if alpha ≥ 5/10 then "Baja (Pobre)"
  else "Muy baja (Inaceptable)"

/-- Model of `_interpret_kmo`: the ordinal interpretation table for KMO. -/
def interpretKmo (kmo : ℚ) : String :=
  if kmo ≥ 9/10 then "Maravilloso"
  else if kmo ≥ 8/10 then "Meritorio"
  else if kmo ≥ 7/10 then "Mediano"
  else if kmo ≥ 6/10 then "Mediocre"
  else if kmo ≥ 5/10 then "Miserable"
  else "Inaceptable"

/-- Result record of `cronbach_alpha` (the dict built at lines 132-141 of the
source; the float entries become rationals). -/
structure CronbachResult where
  alpha : ℚ
  interpretation : String
  n_items : ℕ
  n_observations : ℕ
  item_total_correlations : List (String × ℚ)
  alpha_if_item_deleted : List (String × ℚ)
  items : List String
  mean_inter_item_correlation : ℚ
deriving DecidableEq, Repr

/-- Result record of `split_half_reliability`. -/
structure SplitHalfResult where
  correlation_halves : ℚ
  spearman_brown_coefficient : ℚ
  first_half_items : List String
  second_half_items : List String
  n_observations : ℕ
  interpretation : String
deriving DecidableEq, Repr

/-- Result record of `kmo_test`.  The KMO values are `Option ℚ`: `none`
models the `NaN` that the source's float arithmetic produces when a
per-item division is `0.0/0.0` (both sums of squares zero, e.g. at an
exactly-identity correlation matrix); `np.mean` propagates that `NaN` to
the global value. -/
structure KmoResult where
  kmo_global : Option ℚ
  interpretation : String
  kmo_per_variable : List (String × Option ℚ)
  n_variables : ℕ
  n_observations : ℕ
deriving DecidableEq, Repr

/-- Result record of `bartlett_test`.  `chi_square` and `p_value` depend on
the oracle's `ln` and chi-square CDF. -/
structure BartlettResult where
  chi_square : ℚ
  degrees_of_freedom : ℕ
  p_value : ℚ
  interpretation : String
  suitable_for_factor_analysis : Bool
  n_variables : ℕ
  n_observations : ℕ
deriving DecidableEq, Repr

/-- Result record of `construct_validity_factorial`.  `eigenvalues_out`
models the source's `'eigenvalues': eigenvalues if n_factors is None else
None`, which is always `None` because the local `n_factors` has been
reassigned to an integer by that point. -/
structure FactorialResult where
  n_factors : ℕ
  factor_loadings : List (List ℚ)
  explained_variance_ratios : List ℚ
  total_variance_explained : ℚ
  eigenvalues_out : Option (List ℚ)
deriving DecidableEq, Repr

/-- Result record of `convergent_validity`. -/
structure ConvergentResult where
  mean_correlation : ℚ
  min_correlation : ℚ
  max_correlation : ℚ
  n_correlations : ℕ
  interpretation : String
deriving DecidableEq, Repr

/-- Result record of `discriminant_validity`. -/
structure DiscriminantResult where
  correlation_between_dimensions : ℚ
  dimension1_items : List String
  dimension2_items : List String
  n_observations : ℕ
  interpretation : String
deriving DecidableEq, Repr

/-- Result record of `criterion_validity`. -/
structure CriterionResult where
  correlation_with_criterion : ℚ
  p_value : ℚ
  significant : Bool
  criterion_variable : String
  n_observations : ℕ
  interpretation : String
deriving DecidableEq, Repr

/-- Abstraction of the external numeric library primitives the source calls.
Each field models one scipy / numpy / sklearn routine; `Option` results model
routines that can raise (`np.linalg.inv` raises `LinAlgError` on singular
input, `FactorAnalysis.fit` can raise on degenerate input). -/
structure Oracle where
  lnQ : ℚ → ℚ                                  -- np.log
  chi2cdf : ℚ → ℚ → ℚ                          -- scipy.stats.chi2.cdf (x, df)
  tcdf : ℚ → ℚ → ℚ                             -- scipy.stats.t.cdf (x, df)
  eigvalsQ : List (List ℚ) → List ℚ            -- np.linalg.eigvals
  matInv : List (List ℚ) → Option (List (List ℚ))  -- np.linalg.inv
  faFit : ℕ → List (List ℚ) → Option (List (List ℚ) × List (List ℚ))
    -- sklearn FactorAnalysis: components and transformed factor scores
    -- (scores as rows × factors)

/-- Alpha over a given set of retained rows and a given column list: the
arithmetic of source lines 96-105 (also reused at lines 122-130 for "alpha
if item deleted", where the retained rows stay those of the *full* item
list — the source does not re-run `dropna` on the remaining columns). -/
def subsetAlphaVal (rows : List (String → Option ℚ)) (sel : List String) : ℚ :=
  ((sel.length : ℚ) / ((sel.length : ℚ) - 1)) *
    (1 - (sel.map fun i => svar (colValues rows i)).sum /
      svar (rows.map (rowScore sel)))

/-- The alpha statistic of `cronbach_alpha` (source line 105). -/
def cronbachAlphaVal (d : Dataset) (items : List String) : ℚ :=
  subsetAlphaVal (completeRows d items) items

/-- Per-item item-total correlations (source lines 111-118): each item
against the total score minus the item. -/
def itemTotalCorrs (d : Dataset) (items : List String) : List (String × ℚ) :=
  items.map fun i =>
    (i, pearsonQ (colValues (completeRows d items) i)
          (((completeRows d items).map (rowScore items)).zip
              (colValues (completeRows d items) i) |>.map fun p => p.1 - p.2))

/-- Per-item "alpha if this item were removed" (source lines 121-130),
recomputed on the remaining columns over the same retained rows, only when
more than one item remains. -/
def alphaIfDeleted (d : Dataset) (items : List String) : List (String × ℚ) :=
  items.filterMap fun i =>
    let rem := items.filter fun j => j ≠ i
    if 1 < rem.length then some (i, subsetAlphaVal (completeRows d items) rem)
    else none

/-- Mean of the strictly-upper-triangle pairwise inter-item correlations
(source line 140). -/
def meanInterItem (d : Dataset) (items : List String) : ℚ :=
  meanQ ((pairsUpper items).map fun p =>
    pearsonQ (colValues (completeRows d items) p.1)
      (colValues (completeRows d items) p.2))

/-- Model of `cronbach_alpha` (source lines 87-149).  Returns `none` exactly on the
configurations where the source returns `None`:

* a selected item is not a dataset column (`self.data[items]` raises
  `KeyError`, caught by the handler);
* zero rows survive listwise deletion (explicit `len(df_items) == 0` check);
* exactly one item (`n_items / (n_items - 1)` raises `ZeroDivisionError`);
* a duplicated item name (`df_items[item]` then yields a two-column frame
  and the `corr` call in the item-total loop raises, caught by the handler).
-/
def cronbach (d : Dataset) (items : List String) : Option CronbachResult :=
  if ¬ colsOK d items then none
  else
    let rows := completeRows d items
    if rows.length = 0 then none
    else if items.length = 1 then none
    else if ¬ items.Nodup then none
    else
      some {
        alpha := cronbachAlphaVal d items
        interpretation := interpretCronbach (cronbachAlphaVal d items)
        n_items := items.length
        n_observations := rows.length
        item_total_correlations := itemTotalCorrs d items
        alpha_if_item_deleted := alphaIfDeleted d items
        items := items
        mean_inter_item_correlation := meanInterItem d items
      }

/-- Model of `df_items[half].sum(axis=1)` for a single row, where `df_items`
is the frame selected by the full — possibly duplicated — item list
`allCols`.  Selecting a label from a frame with duplicated columns returns
*every* matching column, so each label occurrence in `half` contributes the
row's value once per occurrence of that label among `allCols` (for the
concatenated list `[x, y, y, z]` the halves `[x, y]` and `[y, z]` score
`x + 2y` and `2y + z`).  On a duplicate-free list this is `rowScore`. -/
def dupRowScore (allCols half : List String) (r : String → Option ℚ) : ℚ :=
  (half.map fun i => ((allCols.count i : ℚ)) * ((r i).getD 0)).sum

/-- Model of `split_half_reliability` (source lines 448-481).  The only exception the
body can raise is the `KeyError` of a missing column, so `none` occurs
exactly then.  The half scores are `df_items[first_half].sum(axis=1)` over
the frame `df_items = self.data[items].dropna()`: when `items` carries
duplicated labels the frame carries duplicated columns and each half label
selects all of them, hence `dupRowScore`.  At `r = -1` the Spearman-Brown
division `2r/(1+r)` has a zero denominator: the source's numpy floats
produce `-inf` without raising, and the rational model reads the total
division `(-2)/0 = 0`; either way a populated record is returned. -/
def splitHalf (d : Dataset) (items : List String) : Option SplitHalfResult :=
  if ¬ colsOK d items then none
  else
    let rows := completeRows d items
    let mid := items.length / 2
    let firstHalf := items.take mid
    let secondHalf := items.drop mid
    let s1 := rows.map (dupRowScore items firstHalf)
    let s2 := rows.map (dupRowScore items secondHalf)
    let r := pearsonQ s1 s2
    let reliability := (2 * r) / (1 + r)
    some {
      correlation_halves := r
      spearman_brown_coefficient := reliability
      first_half_items := firstHalf
      second_half_items := secondHalf
      n_observations := rows.length
      interpretation := interpretCronbach reliability
    }

/-- Model of `StandardScaler.fit_transform` on one column: subtract the mean and
divide by the population (`ddof = 0`) standard deviation; sklearn replaces a
zero scale by 1, i.e. zero-variance columns are only centred. -/
def standardizeCol (xs : List ℚ) : List ℚ :=
  let m := meanQ xs
  let v := popVar xs
  if v = 0 then xs.map fun x => x - m
  else xs.map fun x => (x - m) / sqrtQ v

/-- The correlation matrix `np.corrcoef(data_scaled.T)` computed by
`kmo_test` after standardising the selected columns. -/
def kmoCorrMatrix (d : Dataset) (items : List String) : List (List ℚ) :=
  let rows := completeRows d items
  let scaled := items.map fun i => standardizeCol (colValues rows i)
  scaled.map fun c1 => scaled.map fun c2 => pearsonQ c1 c2

/-- Per-item numerator of the KMO formula: `np.sum(corr_matrix[i,:]**2) - 1`
(the `-1` removes the diagonal of a unit-diagonal correlation matrix). -/
def kmoSqCorrSum (R : List (List ℚ)) (k i : ℕ) : ℚ :=
  (∑ j ∈ Finset.range k, (mget R i j) ^ 2) - 1

/-- Per-item sum of squared partial correlations, where the partial
correlation is `-corr_inv[i,j] / sqrt(corr_inv[i,i] * corr_inv[j,j])`
(source lines 197-201). -/
def kmoSqPartialSum (Rinv : List (List ℚ)) (k i : ℕ) : ℚ :=
  ∑ j ∈ Finset.range k,
    if j = i then 0
    else ((-(mget Rinv i j)) / sqrtQ (mget Rinv i i * mget Rinv j j)) ^ 2

/-- The denominator of the per-item KMO ratio. -/
def kmoDenom (R Rinv : List (List ℚ)) (k i : ℕ) : ℚ :=
  kmoSqCorrSum R k i + kmoSqPartialSum Rinv k i

/-- Per-item KMO (source line 204).  A zero denominator arises in the
source as the float division `0.0/0.0` (both sums of squares zero, the
quotient's numerator then also zero), which yields `NaN` with a suppressed
warning; `none` models that `NaN`. -/
def kmoPerItem (R Rinv : List (List ℚ)) (k i : ℕ) : Option ℚ :=
  if kmoDenom R Rinv k i = 0 then none
  else some (kmoSqCorrSum R k i / kmoDenom R Rinv k i)

/-- Model of `kmo_test` (source lines 174-226).  `none` on: a missing column
(`KeyError`), an empty item list or zero surviving rows (`StandardScaler`
raises on zero features / zero samples), or a singular correlation matrix
(`np.linalg.inv` raises `LinAlgError`, modelled by the oracle returning
`none`). -/
def kmoTest (o : Oracle) (d : Dataset) (items : List String) : Option KmoResult :=
  if ¬ colsOK d items then none
  else if items.length = 0 then none
  else
    let rows := completeRows d items
    if rows.length = 0 then none
    else
      let R := kmoCorrMatrix d items
      match o.matInv R with
      | none => none
      | some Rinv =>
        let k := items.length
        let perVar := (List.range k).map fun i => kmoPerItem R Rinv k i
        -- np.mean: the mean when every per-item value is finite; a NaN
        -- (modelled none) among them propagates to a NaN mean.
        let kmoGlobal : Option ℚ :=
          if perVar.all Option.isSome then
            some ((perVar.map fun v => v.getD 0).sum / (k : ℚ))
          else none
        some {
          kmo_global := kmoGlobal
          -- _interpret_kmo on NaN: every ≥-threshold comparison is False,
          -- landing in the final else branch.
          interpretation :=
            match kmoGlobal with
            | some g => interpretKmo g
            | none => "Inaceptable"
          kmo_per_variable := items.zip perVar
          n_variables := k
          n_observations := rows.length
        }

/-- Model of `df_items.corr()`: the item-by-item Pearson correlation matrix used by
`bartlett_test` (the rows are already complete, so pandas' pairwise deletion
coincides with using all retained rows). -/
def corrMatrixOf (d : Dataset) (items : List String) : List (List ℚ) :=
  let rows := completeRows d items
  items.map fun a => items.map fun b =>
    pearsonQ (colValues rows a) (colValues rows b)

/-- Model of `bartlett_test` (source lines 246-291).  The body raises only on a
missing column: `np.log` of a non-positive determinant yields `nan`/`-inf`
*without* raising (numpy warnings are suppressed), `scipy.stats.chi2.cdf`
accepts any float, and the `p_value < 0.05` comparison is simply `False` on
`nan`.  So `none` occurs exactly on a missing column. -/
def bartlettTest (o : Oracle) (d : Dataset) (items : List String) :
    Option BartlettResult :=
  if ¬ colsOK d items then none
  else
    let rows := completeRows d items
    let n : ℚ := (rows.length : ℚ)
    let p : ℚ := (items.length : ℚ)
    let det := detQ (corrMatrixOf d items)
    let chi := -((n - 1) - (2 * p + 5) / 6) * o.lnQ det
    let pv := 1 - o.chi2cdf chi (p * (p - 1) / 2)
    some {
      chi_square := chi
      degrees_of_freedom := items.length * (items.length - 1) / 2
      p_value := pv
      interpretation :=
        if pv < 1/20 then
          "Rechazar H0: Las variables están correlacionadas (apropiado para análisis factorial)"
        else "No rechazar H0: Las variables NO están suficientemente correlacionadas"
      suitable_for_factor_analysis := decide (pv < 1/20)
      n_variables := items.length
      n_observations := rows.length
    }

/-- Per-factor score variances `np.var(fa.transform(data_scaled), axis=0)`
(population variance of each factor column of the transformed scores). -/
def factorScoreVariances (nFactors : ℕ) (scores : List (List ℚ)) : List ℚ :=
  (List.range nFactors).map fun j => popVar (scores.map fun r => r.getD j 0)

/-- Model of `explained_variance / explained_variance.sum()` (source line 583). -/
def explainedVarianceRatios (nFactors : ℕ) (scores : List (List ℚ)) : List ℚ :=
  (factorScoreVariances nFactors scores).map fun e =>
    e / (factorScoreVariances nFactors scores).sum

/-- Model of `explained_variance_ratio.sum()` stored as `total_variance_explained`
(source line 589). -/
def totalVarianceExplained (nFactors : ℕ) (scores : List (List ℚ)) : ℚ :=
  (explainedVarianceRatios nFactors scores).sum

/-- Standardised data matrix (column per item) prepared by
`construct_validity_factorial` (source lines 555-600) before fitting.  The
factor model fit itself (`sklearn.decomposition.FactorAnalysis`) is an
iterative optimiser and is abstracted by `o.faFit`; everything around it
follows the source.  `constructValidityFactorial` below is `none` on: a
missing column, zero surviving rows (scaler raises), or a failing fit. -/
def scaledCols (d : Dataset) (items : List String) : List (List ℚ) :=
  items.map fun i => standardizeCol (colValues (completeRows d items) i)

/-- Number of factors used by `construct_validity_factorial`: the explicit
argument when given, otherwise the Kaiser criterion (count of
correlation-matrix eigenvalues strictly above 1, eigenvalues through the
oracle). -/
def chosenFactors (o : Oracle) (d : Dataset) (items : List String)
    (nFactorsArg : Option ℕ) : ℕ :=
  match nFactorsArg with
  | some k => k
  | none =>
    ((o.eigvalsQ ((scaledCols d items).map fun c1 =>
        (scaledCols d items).map fun c2 => pearsonQ c1 c2)).filter
      fun e => 1 < e).length

/-- Model of `construct_validity_factorial` (source lines 555-600); the first
doc comment above `scaledCols` describes the standardisation step. -/
def constructValidityFactorial (o : Oracle) (d : Dataset) (items : List String)
    (nFactorsArg : Option ℕ) : Option FactorialResult :=
  if ¬ colsOK d items then none
  else if (completeRows d items).length = 0 then none
  else
    let nFactors := chosenFactors o d items nFactorsArg
    match o.faFit nFactors (scaledCols d items) with
    | none => none
    | some (loadings, scores) =>
      some {
        n_factors := nFactors
        factor_loadings := loadings
        explained_variance_ratios := explainedVarianceRatios nFactors scores
        total_variance_explained := totalVarianceExplained nFactors scores
        eigenvalues_out := none
      }

/-- Model of `convergent_validity` (source lines 615-659).  `none` on a missing
column, and also when there are no pairwise correlations (`np.min` of an
empty sequence raises `ValueError`). -/
def convergentValidity (d : Dataset) (items : List String) :
    Option ConvergentResult :=
  if ¬ colsOK d items then none
  else
    let rows := completeRows d items
    let corrs := (pairsUpper items).map fun p =>
      pearsonQ (colValues rows p.1) (colValues rows p.2)
    match corrs with
    | [] => none
    | c :: cs =>
      let m := meanQ (c :: cs)
      some {
        mean_correlation := m
        min_correlation := cs.foldl min c
        max_correlation := cs.foldl max c
        n_correlations := (c :: cs).length
        interpretation :=
          if m ≥ 1/2 then "Excelente validez convergente"
          else if m ≥ 3/10 then "Buena validez convergente"
          else if m ≥ 1/5 then "Validez convergente aceptable"
          else "Validez convergente insuficiente"
      }

/-- Model of `discriminant_validity` (source lines 677-718).  Row-sum score per
dimension, aligned on the rows complete in both dimensions, then Pearson
correlation.  `none` only on a missing column. -/
def discriminantValidity (d : Dataset) (items1 items2 : List String) :
    Option DiscriminantResult :=
  if ¬ (colsOK d items1 && colsOK d items2) then none
  else
    let common := completeRows d (items1 ++ items2)
    let s1 := common.map (rowScore items1)
    let s2 := common.map (rowScore items2)
    let r := pearsonQ s1 s2
    some {
      correlation_between_dimensions := r
      dimension1_items := items1
      dimension2_items := items2
      n_observations := common.length
      interpretation :=
        if |r| < 3/10 then "Excelente validez discriminante"
        else if |r| < 1/2 then "Buena validez discriminante"
        else if |r| < 7/10 then "Validez discriminante moderada"
        else "Validez discriminante insuficiente (dimensiones muy relacionadas)"
    }

/-- Model of `criterion_validity` (source lines 735-780).  Predictor row-sum score
aligned with the criterion column on rows complete in both, Pearson
correlation, then a t statistic and two-tailed p-value through the oracle's
Student-t CDF.  `none` only on a missing column. -/
def criterionValidity (o : Oracle) (d : Dataset) (items : List String)
    (crit : String) : Option CriterionResult :=
  if ¬ (colsOK d items && colsOK d [crit]) then none
  else
    let common := completeRows d (items ++ [crit])
    let score := common.map (rowScore items)
    let critVals := colValues common crit
    let r := pearsonQ score critVals
    let n : ℚ := (common.length : ℚ)
    let t := r * sqrtQ ((n - 2) / (1 - r ^ 2))
    let pv := 2 * (1 - o.tcdf |t| (n - 2))
    some {
      correlation_with_criterion := r
      p_value := pv
      significant := decide (pv < 1/20)
      criterion_variable := crit
      n_observations := common.length
      interpretation :=
        if |r| ≥ 1/2 ∧ pv < 1/100 then "Excelente validez de criterio"
        else if |r| ≥ 3/10 ∧ pv < 1/20 then "Buena validez de criterio"
        else if pv < 1/20 then "Validez de criterio aceptable"
        else "Validez de criterio insuficiente (no significativa)"
    }

/-- Tagged value stored in the `'general'` and `'by_dimension'` sections of
the comprehensive report. -/
inductive MetricVal where
  | alphaV : CronbachResult → MetricVal
  | splitV : SplitHalfResult → MetricVal
  | kmoV : KmoResult → MetricVal
  | bartlettV : BartlettResult → MetricVal
deriving DecidableEq, Repr

/-- Tagged value stored in the `'validity'` section. -/
inductive ValidityVal where
  | factorialV : FactorialResult → ValidityVal
  | convergentV : ConvergentResult → ValidityVal
  | discriminantV : DiscriminantResult → ValidityVal
  | criterionV : CriterionResult → ValidityVal
deriving DecidableEq, Repr

/-- The root output of `comprehensive_reliability_validity`.  Python dicts
with string keys are modelled as association lists in insertion order.  In
the `general` section a key is always present and maps to an `Option`
(the source assigns the possibly-`None` return value directly); in the
per-dimension and validity sections a failed metric's key is absent (the
source only assigns under `if result:`). -/
structure Report where
  general : List (String × Option MetricVal)
  by_dimension : List (String × List (String × MetricVal))
  validity : List (String × ValidityVal)
deriving DecidableEq, Repr

/-- Model of `all_items = [item for items in dimensions.values() for item in items]`
(source line 357): the *concatenation* of the dimensions' item lists, in
iteration order, duplicates preserved. -/
def allItems (dims : List (String × List String)) : List String :=
  (dims.map Prod.snd).flatten

/-- One dimension's result map (source lines 330-354): Alpha and split-half
always attempted, KMO and Bartlett only for at least 3 items; a failed
metric is omitted. -/
def dimResults (o : Oracle) (d : Dataset) (items : List String) :
    List (String × MetricVal) :=
  ((cronbach d items).map fun r => ("cronbach_alpha", MetricVal.alphaV r)).toList ++
  ((splitHalf d items).map fun r => ("split_half", MetricVal.splitV r)).toList ++
  (if 3 ≤ items.length then
    ((kmoTest o d items).map fun r => ("kmo", MetricVal.kmoV r)).toList else []) ++
  (if 3 ≤ items.length then
    ((bartlettTest o d items).map fun r => ("bartlett", MetricVal.bartlettV r)).toList
   else [])

/-- The `'general'` section (source lines 361-364): the four metrics over
the concatenated item list, each key assigned unconditionally (so a failure
appears as the key mapped to `none`). -/
def generalSection (o : Oracle) (d : Dataset) (dims : List (String × List String)) :
    List (String × Option MetricVal) :=
  let its := allItems dims
  [("cronbach_alpha", (cronbach d its).map MetricVal.alphaV),
   ("split_half", (splitHalf d its).map MetricVal.splitV),
   ("kmo", (kmoTest o d its).map MetricVal.kmoV),
   ("bartlett", (bartlettTest o d its).map MetricVal.bartlettV)]

/-- Validity entries `f'{dim_name}_factorial'` (source lines 374-379):
dimensions with at least 3 items, Kaiser-criterion factor count, failures
omitted. -/
def factorialEntries (o : Oracle) (d : Dataset)
    (dims : List (String × List String)) : List (String × ValidityVal) :=
  dims.filterMap fun p =>
    if 3 ≤ p.2.length then
      (constructValidityFactorial o d p.2 none).map fun r =>
        (p.1 ++ "_factorial", ValidityVal.factorialV r)
    else none

/-- Validity entries `f'{dim_name}_convergent'` (source lines 383-388). -/
def convergentEntries (d : Dataset) (dims : List (String × List String)) :
    List (String × ValidityVal) :=
  dims.filterMap fun p =>
    if 2 ≤ p.2.length then
      (convergentValidity d p.2).map fun r =>
        (p.1 ++ "_convergent", ValidityVal.convergentV r)
    else none

/-- The single `'discriminant'` entry (source lines 392-402): only the
*first two* dimensions in iteration order are compared, regardless of how
many dimensions exist. -/
def discriminantEntry (d : Dataset) (dims : List (String × List String)) :
    List (String × ValidityVal) :=
  match dims with
  | p1 :: p2 :: _ =>
    match discriminantValidity d p1.2 p2.2 with
    | some r => [("discriminant", ValidityVal.discriminantV r)]
    | none => []
  | _ => []

/-- The `'criterion'` entry (source lines 405-409): only when a criterion
variable is supplied, is truthy (a non-empty string) and exists among the
dataset columns. -/
def criterionEntry (o : Oracle) (d : Dataset) (items : List String)
    (crit : Option String) : List (String × ValidityVal) :=
  match crit with
  | none => []
  | some c =>
    if c ≠ "" ∧ d.cols.contains c then
      match criterionValidity o d items c with
      | some r => [("criterion", ValidityVal.criterionV r)]
      | none => []
    else []

/-- The `'validity'` section assembled in source order: factorial entries,
convergent entries, the single discriminant entry, the criterion entry. -/
def validitySection (o : Oracle) (d : Dataset)
    (dims : List (String × List String)) (crit : Option String) :
    List (String × ValidityVal) :=
  factorialEntries o d dims ++ convergentEntries d dims ++
    discriminantEntry d dims ++ criterionEntry o d (allItems dims) crit

/-- Model of `comprehensive_reliability_validity` (source lines 293-415). -/
def comprehensive (o : Oracle) (d : Dataset)
    (dims : List (String × List String)) (includeValidity : Bool)
    (crit : Option String) : Report :=
  { general := generalSection o d dims
    by_dimension := dims.map fun p => (p.1, dimResults o d p.2)
    validity := if includeValidity then validitySection o d dims crit else [] }

/-- Written from the spec's wording of §4.1 (independently of the source):
"let k = number of items, Vi = sum of per-item sample variances (ddof=1),
Vt = sample variance of the row-wise sum score. α = (k/(k−1)) · (1 − Vi/Vt)",
with "rows with any missing value among the selected items excluded
(complete-case listwise deletion) before computing". -/
def cronbachAlphaSpec (d : Dataset) (items : List String) : ℚ :=
  let kept := d.rows.filter fun r => items.all fun i => (r i).isSome
  let k : ℚ := (items.length : ℚ)
  let vi := (items.map fun i => svar (kept.map fun r => (r i).getD 0)).sum
  let vt := svar (kept.map fun r => (items.map fun i => (r i).getD 0).sum)
  (k / (k - 1)) * (1 - vi / vt)

/-- Written from the spec's wording of §4.3: "Per-item KMO =
squaredCorrSum / (squaredCorrSum + squaredPartialSum)", with squaredCorrSum
the row sum of R² minus the diagonal 1 and partial correlation
−R⁻¹[i,j] / sqrt(R⁻¹[i,i]·R⁻¹[j,j]). -/
def kmoSpecPerItem (R Rinv : List (List ℚ)) (k i : ℕ) : ℚ :=
  let squaredCorrSum := (∑ j ∈ Finset.range k, (mget R i j) ^ 2) - 1
  let squaredPartialSum :=
    ∑ j ∈ Finset.range k,
      if j = i then 0
      else ((-(mget Rinv i j)) / sqrtQ (mget Rinv i i * mget Rinv j j)) ^ 2
  squaredCorrSum / (squaredCorrSum + squaredPartialSum)

/-- Trivial oracle used for concrete evaluations: every abstracted library
primitive returns a fixed harmless value (`matInv` echoes its input — no
theorem instantiated at this oracle depends on inverse correctness). -/
def oTriv : Oracle where
  lnQ := fun _ => 0
  chi2cdf := fun _ _ => 0
  tcdf := fun _ _ => 0
  eigvalsQ := fun _ => []
  matInv := fun m => some m
  faFit := fun _ _ => some ([], [])

/-- Oracle whose factor fit returns all-zero factor scores — the scores
`FactorAnalysis.fit/transform` actually produces on all-constant columns
(standardisation maps them to zero, and the transform of a zero matrix is
zero). -/
def oZeroScores : Oracle :=
  { oTriv with faFit := fun _ _ => some ([], [[0], [0]]) }

/-- Oracle whose factor fit returns the concrete nondegenerate score column
`[1, 2]`. -/
def oPlainScores : Oracle :=
  { oTriv with faFit := fun _ _ => some ([], [[1], [2]]) }

/-- Concrete dataset for the C1 counterexample: three complete rows over
columns x, y, z. -/
def dC1 : Dataset :=
  ⟨["x", "y", "z"],
   [rowOf [("x", 1), ("y", 2), ("z", 3)],
    rowOf [("x", 2), ("y", 4), ("z", 5)],
    rowOf [("x", 3), ("y", 6), ("z", 7)]]⟩

/-- Two overlapping dimensions: item y belongs to both. -/
def dimsC1 : List (String × List String) := [("A", ["x", "y"]), ("B", ["y", "z"])]

/-- Concrete dataset with one column and two complete rows. -/
def dC2 : Dataset := ⟨["a"], [rowOf [("a", 1)], rowOf [("a", 2)]]⟩

/-- Concrete dataset whose single row has a missing value in column a. -/
def dMiss : Dataset := ⟨["a"], [rowOf []]⟩

/-- Concrete two-column dataset with three complete rows. -/
def dC3 : Dataset :=
  ⟨["a", "b"],
   [rowOf [("a", 1), ("b", 2)], rowOf [("a", 2), ("b", 1)],
    rowOf [("a", 4), ("b", 5)]]⟩

/-- Concrete dataset whose two columns are identical, so their correlation
matrix [[1,1],[1,1]] has determinant 0. -/
def dC4 : Dataset :=
  ⟨["x", "y"],
   [rowOf [("x", 1), ("y", 1)], rowOf [("x", 2), ("y", 2)],
    rowOf [("x", 3), ("y", 3)]]⟩

/-- Concrete dataset whose two columns are exact opposites, so the two
split-half scores have Pearson correlation exactly −1 (all square roots
involved are exact). -/
def dC5 : Dataset :=
  ⟨["a", "b"],
   [rowOf [("a", 1), ("b", 3)], rowOf [("a", 2), ("b", 2)],
    rowOf [("a", 3), ("b", 1)]]⟩

/-- Concrete dataset with three constant columns (used for the factorial
degenerate counterexample). -/
def dConst : Dataset :=
  ⟨["a", "b", "c"],
   [rowOf [("a", 1), ("b", 1), ("c", 1)],
    rowOf [("a", 1), ("b", 1), ("c", 1)]]⟩

/-- The concrete KMO result produced by `kmoTest oTriv dC5 ["a", "b"]`
(correlation matrix [[1,−1],[−1,1]], the trivial oracle echoes it as its
inverse, each per-item KMO is 1/(1+1) = 1/2). -/
def kmoWitnessRes : KmoResult :=
  { kmo_global := some (1/2)
    interpretation := interpretKmo (1/2)
    kmo_per_variable := [("a", some (1/2)), ("b", some (1/2))]
    n_variables := 2
    n_observations := 3 }

/-- Concrete dataset whose two columns are exactly orthogonal with exactly
representable standardisation: both columns centre to deviations
`(-1,-1,0,1,1)` / `(-1,1,0,-1,1)` after dividing by `sqrtQ (4/5) = 1`, the
sample variance of each standardised column is exactly 1 and the
cross-covariance exactly 0, so the computed correlation matrix is exactly
the 2×2 identity.  The float pipeline reaches the same identity matrix (the
cross products cancel pairwise, the diagonal is normalised to 1), its
inverse is the identity, and both per-item KMO divisions are `0.0/0.0`. -/
def dIdent : Dataset :=
  ⟨["a", "b"],
   [rowOf [("a", 0), ("b", 0)],
    rowOf [("a", 0), ("b", 2)],
    rowOf [("a", 1), ("b", 1)],
    rowOf [("a", 2), ("b", 0)],
    rowOf [("a", 2), ("b", 2)]]⟩

/-! ## Helper lemmas -/

theorem sum_map_div (l : List ℚ) (c : ℚ) :
    (l.map fun e => e / c).sum = l.sum / c := by
  induction l with
  | nil => simp
  | cons x xs ih => simp [ih, add_div]

/-! ## C1 — the "general" metrics and item deduplication -/

/-- C1 (counterexample): the claim states that the four "general" metrics of
`comprehensive_reliability_validity` are computed over the *union* of the
dimensions' items (each distinct item once).  With the two overlapping
dimensions `dimsC1` (item y in both), the general split-half entry differs
from the split-half over the deduplicated item list — the source passes the
concatenation `[x, y, y, z]`, whose halves are `[x, y] / [y, z]`, not the
union `[x, y, z]` with halves `[x] / [y, z]`. -/
theorem c1_general_union_refuted :
    ¬ ((comprehensive oTriv dC1 dimsC1 false none).general.lookup "split_half"
        = some ((splitHalf dC1 ((allItems dimsC1).dedup)).map MetricVal.splitV)) := by
  decide

/-- C1 (amended): the four "general" metrics are computed over the
*concatenation* of all dimensions' item lists in iteration order; an item
appearing in several dimensions contributes once per occurrence. -/
theorem c1_general_uses_concatenation (o : Oracle) (d : Dataset)
    (dims : List (String × List String)) (iv : Bool) (crit : Option String) :
    (comprehensive o d dims iv crit).general =
      [("cronbach_alpha",
          (cronbach d ((dims.map Prod.snd).flatten)).map MetricVal.alphaV),
       ("split_half",
          (splitHalf d ((dims.map Prod.snd).flatten)).map MetricVal.splitV),
       ("kmo",
          (kmoTest o d ((dims.map Prod.snd).flatten)).map MetricVal.kmoV),
       ("bartlett",
          (bartlettTest o d ((dims.map Prod.snd).flatten)).map MetricVal.bartlettV)] :=
  rfl

/-! ## C2 — cronbach_alpha failure signalling -/

/-- C2 (counterexample): the claim states that fewer than 2 items always
fails with an `InsufficientItemsError`-style signal.  With zero items the
source raises nothing (the `k/(k-1)` division is `0/(-1)` and the numpy
`0.0/0.0` divisions yield `NaN` without raising), so a fully-populated
result is returned; there is also no distinguishable error-kind signal
anywhere in `cronbach_alpha` — every failure is the same bare `None`. -/
theorem c2_insufficient_items_refuted :
    List.length ([] : List String) < 2 ∧ (cronbach dC2 []).isSome = true := by
  decide

/-- C2 (amended): with zero surviving rows, or with exactly one item, the
operation fails — but with the single undifferentiated signal `None`
(modelled `none`), not with distinguishable `NoDataError` /
`InsufficientItemsError` kinds; and with zero items it does not fail at
all. -/
theorem c2_failure_modes (d : Dataset) (items : List String)
    (h : (completeRows d items).length = 0 ∨ items.length = 1) :
    cronbach d items = none := by
  rcases h with h | h
  · rcases hc : colsOK d items with _ | _
    · simp [cronbach, hc]
    · simp [cronbach, hc, h]
  · rcases hc : colsOK d items with _ | _
    · simp [cronbach, hc]
    · by_cases hr : (completeRows d items).length = 0
      · simp [cronbach, hc, hr]
      · simp [cronbach, hc, hr, h]

/-- Witness for `c2_failure_modes`: the dataset `dMiss` has a single row
with a missing value in column a, so listwise deletion leaves zero rows and
`cronbach` returns `none`. -/
theorem c2_failure_modes_witness :
    ((completeRows dMiss ["a"]).length = 0 ∨ (["a"] : List String).length = 1)
      ∧ cronbach dMiss ["a"] = none :=
  ⟨Or.inl (by decide), c2_failure_modes dMiss ["a"] (Or.inl (by decide))⟩

/-! ## C4 — Bartlett on a non-positive determinant -/

/-- C4 (counterexample): the claim states that a correlation-matrix
determinant ≤ 0 makes `bartlett_test` fail with a `SingularMatrixError`.
On `dC4` (two identical columns) the determinant is exactly 0, yet the
source returns a populated record: `np.log(0)` is `-inf` with a suppressed
warning, nothing raises. -/
theorem c4_singular_error_refuted :
    detQ (corrMatrixOf dC4 ["x", "y"]) = 0
      ∧ (bartlettTest oTriv dC4 ["x", "y"]).isSome = true := by
  decide

/-- C4 (amended): `bartlett_test` returns a populated result whenever the
selected columns exist — including when the correlation determinant is ≤ 0;
it never signals a singular-matrix error. -/
theorem c4_bartlett_total (o : Oracle) (d : Dataset) (items : List String)
    (h : colsOK d items = true) :
    (bartlettTest o d items).isSome = true := by
  simp [bartlettTest, h]

/-- Witness for `c4_bartlett_total` at the zero-determinant dataset. -/
theorem c4_bartlett_total_witness :
    (colsOK dC4 ["x", "y"] = true)
      ∧ (bartlettTest oTriv dC4 ["x", "y"]).isSome = true :=
  ⟨by decide, c4_bartlett_total oTriv dC4 ["x", "y"] (by decide)⟩

/-! ## C5 — split-half at correlation exactly −1 -/

/-- C5 (counterexample): the claim states that `split_half_reliability`
fails with a `DegenerateCorrelationError` when the half-score correlation
is exactly −1.  On `dC5` the two half scores are `[1,2,3]` and `[3,2,1]`
with correlation exactly −1 (all square roots exact), yet a populated
record is returned: the numpy division `2r/(1+r) = -2/0.0` produces `-inf`
without raising. -/
theorem c5_degenerate_error_refuted :
    ((splitHalf dC5 ["a", "b"]).map fun r => r.correlation_halves) = some (-1)
      ∧ (splitHalf dC5 ["a", "b"]).isSome = true := by
  decide

/-- C5 (amended): `split_half_reliability` returns a populated result
whenever the selected columns exist — including when the correlation
between the two halves is exactly −1; the Spearman-Brown division is
performed on the zero denominator and no error is signalled. -/
theorem c5_split_half_total (d : Dataset) (items : List String)
    (h : colsOK d items = true) :
    (splitHalf d items).isSome = true := by
  simp [splitHalf, h]

/-- Witness for `c5_split_half_total` at the correlation −1 dataset. -/
theorem c5_split_half_total_witness :
    (colsOK dC5 ["a", "b"] = true)
      ∧ (splitHalf dC5 ["a", "b"]).isSome = true :=
  ⟨by decide, c5_split_half_total dC5 ["a", "b"] (by decide)⟩

/-! ## C10 — total variance explained -/

/-- C10 (counterexample): the claim states the returned
`total_variance_explained` is exactly 1 for *every* successful call with at
least one factor, "regardless of the data".  With three constant columns
(standardised to zero) and an explicit single factor, the factor scores are
the zero columns `FactorAnalysis` produces on zero data, all score
variances are 0, and the normalisation divides by a zero sum: the model
yields total 0 (the float implementation yields `NaN`), not 1. -/
theorem c10_total_one_refuted :
    ((constructValidityFactorial oZeroScores dConst ["a", "b", "c"] (some 1)).map
        fun r => r.n_factors) = some 1
      ∧ ((constructValidityFactorial oZeroScores dConst ["a", "b", "c"] (some 1)).map
          fun r => r.total_variance_explained) = some 0
      ∧ ¬ (((constructValidityFactorial oZeroScores dConst ["a", "b", "c"] (some 1)).map
            fun r => r.total_variance_explained) = some 1) := by
  decide

/-- C10 (amended): for every successful call whose extracted factor scores
have a nonzero total variance, the explained-variance ratios are each score
variance over the total, so `total_variance_explained` is exactly 1. -/
theorem c10_total_variance_one (o : Oracle) (d : Dataset) (items : List String)
    (nfa : Option ℕ) (loadings scores : List (List ℚ))
    (hcols : colsOK d items = true)
    (hrows : ¬ (completeRows d items).length = 0)
    (hfit : o.faFit (chosenFactors o d items nfa) (scaledCols d items)
        = some (loadings, scores))
    (hnz : (factorScoreVariances (chosenFactors o d items nfa) scores).sum ≠ 0) :
    ((constructValidityFactorial o d items nfa).map
        fun r => r.total_variance_explained) = some 1 := by
  have htot : totalVarianceExplained (chosenFactors o d items nfa) scores = 1 := by
    unfold totalVarianceExplained explainedVarianceRatios
    rw [sum_map_div, div_self hnz]
  simp [constructValidityFactorial, hcols, hrows, hfit, htot]

/-- Witness for `c10_total_variance_one`: factor scores `[1], [2]` have
total score variance 1/4 ≠ 0, and the call returns total 1. -/
theorem c10_total_variance_one_witness :
    ((factorScoreVariances
        (chosenFactors oPlainScores dConst ["a", "b", "c"] (some 1)) [[1], [2]]).sum ≠ 0)
      ∧ ((constructValidityFactorial oPlainScores dConst ["a", "b", "c"] (some 1)).map
          fun r => r.total_variance_explained) = some 1 :=
  ⟨by decide,
   c10_total_variance_one oPlainScores dConst ["a", "b", "c"] (some 1) [] [[1], [2]]
     (by decide) (by decide) rfl (by decide)⟩

theorem lookup_append_of_none {β : Type} (l1 l2 : List (String × β)) (k : String)
    (h : ∀ p ∈ l1, (k == p.1) = false) :
    (l1 ++ l2).lookup k = l2.lookup k := by
  induction l1 with
  | nil => simp
  | cons a as ih =>
    have ha := h a (by simp)
    simp only [List.cons_append, List.lookup, ha]
    exact ih fun p hp => h p (by simp [hp])

theorem append_ne_of_not_suffix (s t u : String) (h : ¬ t.data <:+ u.data) :
    ¬ (s ++ t = u) :=
  fun he => h ⟨s.data, by rw [← String.data_append, he]⟩

/-! ## C3 — the Cronbach alpha formula -/

/-- C3: for a duplicate-free item list of at least 2 existing columns with
at least one complete row, `cronbach_alpha` performs listwise deletion and
returns α = (k/(k−1))·(1 − Vi/Vt) with ddof-1 variances over the retained
rows (`cronbachAlphaSpec` is written from the spec's §4.1 wording), and
reports the retained row count as `n_observations`. -/
theorem c3_alpha_formula (d : Dataset) (items : List String)
    (hcols : colsOK d items = true) (hnd : items.Nodup)
    (hk : 2 ≤ items.length)
    (hrow : ¬ (completeRows d items).length = 0) :
    ((cronbach d items).map fun r => r.alpha) = some (cronbachAlphaSpec d items)
      ∧ ((cronbach d items).map fun r => r.n_observations)
          = some (completeRows d items).length := by
  have h1 : ¬ items.length = 1 := by omega
  have hc2 : (¬ colsOK d items = true) = False := by simp [hcols]
  have hr2 : ((completeRows d items).length = 0) = False := by simp [hrow]
  have h12 : (items.length = 1) = False := by simp [h1]
  have hn2 : (¬ items.Nodup) = False := by simp [hnd]
  simp only [cronbach, hc2, hr2, h12, hn2, if_false, Option.map_some]
  exact ⟨rfl, rfl⟩

/-- Witness for `c3_alpha_formula` at a concrete 2-item, 3-row dataset. -/
theorem c3_alpha_formula_witness :
    (colsOK dC3 ["a", "b"] = true) ∧ (["a", "b"] : List String).Nodup
      ∧ 2 ≤ (["a", "b"] : List String).length
      ∧ ((cronbach dC3 ["a", "b"]).map fun r => r.alpha)
          = some (cronbachAlphaSpec dC3 ["a", "b"]) :=
  ⟨by decide, by decide, by decide,
   (c3_alpha_formula dC3 ["a", "b"] (by decide) (by decide) (by decide)
     (by decide)).1⟩

/-! ## C9 — presence of keys in 'general' vs omission in 'by_dimension' -/

/-- C9: the `general` section always carries exactly the four keys
cronbach_alpha, split_half, kmo, bartlett; a failed general metric leaves
its key present and mapped to the null result, while in a dimension's
result map a failed metric's key is omitted entirely. -/
theorem c9_general_null_vs_dimension_omitted
    (o : Oracle) (d : Dataset) (dims : List (String × List String))
    (iv : Bool) (crit : Option String) (its : List String)
    (hga : cronbach d (allItems dims) = none)
    (hgs : splitHalf d (allItems dims) = none)
    (hgk : kmoTest o d (allItems dims) = none)
    (hgb : bartlettTest o d (allItems dims) = none)
    (hda : cronbach d its = none)
    (hds : splitHalf d its = none) :
    ((comprehensive o d dims iv crit).general.map Prod.fst
        = ["cronbach_alpha", "split_half", "kmo", "bartlett"])
      ∧ (comprehensive o d dims iv crit).general.lookup "cronbach_alpha" = some none
      ∧ (comprehensive o d dims iv crit).general.lookup "split_half" = some none
      ∧ (comprehensive o d dims iv crit).general.lookup "kmo" = some none
      ∧ (comprehensive o d dims iv crit).general.lookup "bartlett" = some none
      ∧ ((comprehensive o d dims iv crit).by_dimension
          = dims.map fun p => (p.1, dimResults o d p.2))
      ∧ (dimResults o d its).lookup "cronbach_alpha" = none
      ∧ (dimResults o d its).lookup "split_half" = none := by
  refine ⟨rfl, ?_, ?_, ?_, ?_, rfl, ?_, ?_⟩
  · simp [comprehensive, generalSection, hga, List.lookup]
  · simp [comprehensive, generalSection, hgs, List.lookup]
  · simp [comprehensive, generalSection, hgk, List.lookup]
  · simp [comprehensive, generalSection, hgb, List.lookup]
  · by_cases h3 : 3 ≤ its.length
    · rcases hk : kmoTest o d its with _ | rk <;>
        rcases hb : bartlettTest o d its with _ | rb <;>
          simp [dimResults, hda, hds, h3, hk, hb]
    · simp [dimResults, hda, hds, h3]
  · by_cases h3 : 3 ≤ its.length
    · rcases hk : kmoTest o d its with _ | rk <;>
        rcases hb : bartlettTest o d its with _ | rb <;>
          simp [dimResults, hda, hds, h3, hk, hb]
    · simp [dimResults, hda, hds, h3]

/-- Witness for `c9_general_null_vs_dimension_omitted`: a dimension whose
item `zzz` is not a dataset column makes all four general metrics fail
(key present, value null) and the dimension's result map omit the failed
alpha key. -/
theorem c9_general_null_vs_dimension_omitted_witness :
    (comprehensive oTriv dC2 [("DX", ["zzz"])] true none).general.lookup
        "cronbach_alpha" = some none
      ∧ (dimResults oTriv dC2 ["zzz"]).lookup "cronbach_alpha" = none := by
  have h := c9_general_null_vs_dimension_omitted oTriv dC2 [("DX", ["zzz"])]
    true none ["zzz"] (by decide) (by decide) (by decide) (by decide)
    (by decide) (by decide)
  exact ⟨h.2.1, h.2.2.2.2.2.2.1⟩

/-! ## C8 — validity section: one discriminant entry, no criterion entry -/

theorem factorialEntries_key_shape (o : Oracle) (d : Dataset)
    (dims : List (String × List String)) :
    ∀ e ∈ factorialEntries o d dims, ∃ nm, e.1 = nm ++ "_factorial" := by
  intro e he
  obtain ⟨p, _, hfe⟩ := List.mem_filterMap.mp he
  by_cases h3 : 3 ≤ p.2.length
  · rw [if_pos h3] at hfe
    obtain ⟨r, _, hre⟩ := Option.map_eq_some'.mp hfe
    exact ⟨p.1, by rw [← hre]⟩
  · rw [if_neg h3] at hfe
    exact absurd hfe (by simp)

theorem convergentEntries_key_shape (d : Dataset)
    (dims : List (String × List String)) :
    ∀ e ∈ convergentEntries d dims, ∃ nm, e.1 = nm ++ "_convergent" := by
  intro e he
  obtain ⟨p, _, hfe⟩ := List.mem_filterMap.mp he
  by_cases h2 : 2 ≤ p.2.length
  · rw [if_pos h2] at hfe
    obtain ⟨r, _, hre⟩ := Option.map_eq_some'.mp hfe
    exact ⟨p.1, by rw [← hre]⟩
  · rw [if_neg h2] at hfe
    exact absurd hfe (by simp)

/-- C8: with at least two dimensions, validity included and no criterion
variable, the validity map holds exactly one `discriminant` entry — computed
between the first two dimensions in iteration order, however many dimensions
exist — and no `criterion` entry. -/
theorem c8_one_discriminant_no_criterion
    (o : Oracle) (d : Dataset) (n1 n2 : String) (its1 its2 : List String)
    (rest : List (String × List String))
    (h1 : colsOK d its1 = true) (h2 : colsOK d its2 = true) :
    ((comprehensive o d ((n1, its1) :: (n2, its2) :: rest) true none).validity.countP
        fun e => e.1 == "discriminant") = 1
      ∧ ((comprehensive o d ((n1, its1) :: (n2, its2) :: rest) true none).validity.countP
          fun e => e.1 == "criterion") = 0
      ∧ ∃ r, discriminantValidity d its1 its2 = some r
          ∧ (comprehensive o d ((n1, its1) :: (n2, its2) :: rest) true
              none).validity.lookup "discriminant"
              = some (ValidityVal.discriminantV r) := by
  set dims : List (String × List String) := (n1, its1) :: (n2, its2) :: rest with hdims
  obtain ⟨r, hr⟩ : ∃ r, discriminantValidity d its1 its2 = some r := by
    have hiso : (discriminantValidity d its1 its2).isSome = true := by
      unfold discriminantValidity
      rw [if_neg (by simp [h1, h2])]
      rfl
    exact Option.isSome_iff_exists.mp hiso
  have hv : (comprehensive o d dims true none).validity
      = factorialEntries o d dims ++ convergentEntries d dims ++
          discriminantEntry d dims ++ criterionEntry o d (allItems dims) none := by
    simp [comprehensive, validitySection]
  have hde : discriminantEntry d dims = [("discriminant", ValidityVal.discriminantV r)] := by
    simp [discriminantEntry, hdims, hr]
  have hce : criterionEntry o d (allItems dims) none = [] := rfl
  have hfd : ∀ e ∈ factorialEntries o d dims, ¬ e.1 = "discriminant" := by
    intro e he h
    obtain ⟨nm, hnm⟩ := factorialEntries_key_shape o d dims e he
    exact append_ne_of_not_suffix nm "_factorial" "discriminant" (by decide) (hnm ▸ h)
  have hfc : ∀ e ∈ factorialEntries o d dims, ¬ e.1 = "criterion" := by
    intro e he h
    obtain ⟨nm, hnm⟩ := factorialEntries_key_shape o d dims e he
    exact append_ne_of_not_suffix nm "_factorial" "criterion" (by decide) (hnm ▸ h)
  have hcd : ∀ e ∈ convergentEntries d dims, ¬ e.1 = "discriminant" := by
    intro e he h
    obtain ⟨nm, hnm⟩ := convergentEntries_key_shape d dims e he
    exact append_ne_of_not_suffix nm "_convergent" "discriminant" (by decide) (hnm ▸ h)
  have hcc : ∀ e ∈ convergentEntries d dims, ¬ e.1 = "criterion" := by
    intro e he h
    obtain ⟨nm, hnm⟩ := convergentEntries_key_shape d dims e he
    exact append_ne_of_not_suffix nm "_convergent" "criterion" (by decide) (hnm ▸ h)
  refine ⟨?_, ?_, r, hr, ?_⟩
  · rw [hv, hde, hce]
    rw [List.countP_append, List.countP_append, List.countP_append]
    rw [List.countP_eq_zero.mpr (by intro e he; simpa using hfd e he),
      List.countP_eq_zero.mpr (by intro e he; simpa using hcd e he)]
    simp
  · rw [hv, hde, hce]
    rw [List.countP_append, List.countP_append, List.countP_append]
    rw [List.countP_eq_zero.mpr (by intro e he; simpa using hfc e he),
      List.countP_eq_zero.mpr (by intro e he; simpa using hcc e he)]
    simp
  · rw [hv, hde, hce]
    rw [List.append_assoc, List.append_assoc]
    rw [lookup_append_of_none _ _ _
      (fun p hp => by simpa using fun h => hfd p hp h.symm)]
    rw [lookup_append_of_none _ _ _
      (fun p hp => by simpa using fun h => hcd p hp h.symm)]
    simp [List.lookup]

/-- Witness for `c8_one_discriminant_no_criterion`: two single-item
dimensions over existing columns. -/
theorem c8_one_discriminant_no_criterion_witness :
    ((comprehensive oTriv dC5 [("D1", ["a"]), ("D2", ["b"])] true none).validity.countP
        fun e => e.1 == "discriminant") = 1
      ∧ ((comprehensive oTriv dC5 [("D1", ["a"]), ("D2", ["b"])] true none).validity.countP
          fun e => e.1 == "criterion") = 0 := by
  have h := c8_one_discriminant_no_criterion oTriv dC5 "D1" "D2" ["a"] ["b"] []
    (by decide) (by decide)
  exact ⟨h.1, h.2.1⟩

/-! ## C6 — order invariance of Cronbach's alpha -/

theorem lookup_map_pair {β : Type} (l : List String) (g : String → β) (it : String) :
    (l.map fun i => (i, g i)).lookup it = if it ∈ l then some (g it) else none := by
  induction l with
  | nil => simp
  | cons a as ih =>
    by_cases hia : it = a
    · subst hia; simp [List.lookup]
    · have hb : (it == a) = false := beq_eq_false_iff_ne.mpr hia
      simp [List.lookup, hb, ih, hia]

theorem perm_all_eq (p : String → Bool) {l1 l2 : List String} (hp : l1.Perm l2) :
    l1.all p = l2.all p := by
  have hiff : l1.all p = true ↔ l2.all p = true := by
    simp only [List.all_eq_true]
    exact ⟨fun h x hx => h x (hp.mem_iff.mpr hx), fun h x hx => h x (hp.mem_iff.mp hx)⟩
  by_cases h : l1.all p = true
  · rw [h, hiff.mp h]
  · have h2 : ¬ l2.all p = true := fun hh => h (hiff.mpr hh)
    rw [Bool.not_eq_true] at h h2
    rw [h, h2]

theorem completeRows_perm (d : Dataset) {l1 l2 : List String} (hp : l1.Perm l2) :
    completeRows d l1 = completeRows d l2 := by
  unfold completeRows
  exact List.filter_congr fun r _ => perm_all_eq _ hp

theorem rowScore_perm {l1 l2 : List String} (hp : l1.Perm l2) :
    rowScore l1 = rowScore l2 :=
  funext fun r => (hp.map fun i => ((r i).getD 0)).sum_eq

theorem subsetAlphaVal_perm (rows : List (String → Option ℚ))
    {l1 l2 : List String} (hp : l1.Perm l2) :
    subsetAlphaVal rows l1 = subsetAlphaVal rows l2 := by
  unfold subsetAlphaVal
  rw [hp.length_eq, (hp.map fun i => svar (colValues rows i)).sum_eq,
    rowScore_perm hp]

theorem cronbachAlphaVal_perm (d : Dataset) {l1 l2 : List String}
    (hp : l1.Perm l2) : cronbachAlphaVal d l1 = cronbachAlphaVal d l2 := by
  unfold cronbachAlphaVal
  rw [completeRows_perm d hp, subsetAlphaVal_perm _ hp]

theorem itemTotalCorrs_perm_lookup (d : Dataset) {l1 l2 : List String}
    (hp : l1.Perm l2) (it : String) :
    (itemTotalCorrs d l1).lookup it = (itemTotalCorrs d l2).lookup it := by
  unfold itemTotalCorrs
  rw [completeRows_perm d hp, rowScore_perm hp, lookup_map_pair, lookup_map_pair]
  exact if_congr hp.mem_iff rfl rfl

/-- C6: `cronbach_alpha` is invariant under permutation of the item list —
the α value is unchanged, and each item identifier's item-total correlation
(the item against the sum of the other selected items) is unchanged. -/
theorem c6_cronbach_order_invariant (d : Dataset) (items items' : List String)
    (hp : items.Perm items') (_hk : 2 ≤ items.length) :
    (((cronbach d items).map fun r => r.alpha)
        = (cronbach d items').map fun r => r.alpha)
      ∧ ∀ it : String,
        ((cronbach d items).map fun r => r.item_total_correlations.lookup it)
          = (cronbach d items').map fun r => r.item_total_correlations.lookup it := by
  have hcols : colsOK d items = colsOK d items' := perm_all_eq _ hp
  have hrows : completeRows d items = completeRows d items' := completeRows_perm d hp
  have hlen := hp.length_eq
  by_cases h1 : colsOK d items = true
  · have h1' : colsOK d items' = true := hcols ▸ h1
    by_cases h2 : (completeRows d items).length = 0
    · have h2' : (completeRows d items').length = 0 := hrows ▸ h2
      simp [cronbach, h1, h1', h2, h2']
    · have h2' : ¬ (completeRows d items').length = 0 := hrows ▸ h2
      by_cases h3 : items.length = 1
      · have h3' : items'.length = 1 := hlen ▸ h3
        simp [cronbach, h1, h1', h2, h2', h3, h3']
      · have h3' : ¬ items'.length = 1 := hlen ▸ h3
        by_cases h4 : items.Nodup
        · have h4' : items'.Nodup := hp.nodup_iff.mp h4
          refine ⟨?_, fun it => ?_⟩
          · simp only [cronbach, h1, h1', h2, h2', h3, h3', h4, h4',
              not_true, not_false_iff, if_false, if_true, Option.map_some]
            exact congrArg some (cronbachAlphaVal_perm d hp)
          · simp only [cronbach, h1, h1', h2, h2', h3, h3', h4, h4',
              not_true, not_false_iff, if_false, if_true, Option.map_some]
            exact congrArg some (itemTotalCorrs_perm_lookup d hp it)
        · have h4' : ¬ items'.Nodup := fun hh => h4 (hp.nodup_iff.mpr hh)
          simp [cronbach, h1, h1', h2, h2', h3, h3', h4, h4']
  · have h1' : ¬ colsOK d items' = true := hcols ▸ h1
    simp [cronbach, h1, h1']

/-- Witness for `c6_cronbach_order_invariant` at the two orderings of the
two-item list over `dC5`. -/
theorem c6_cronbach_order_invariant_witness :
    (["a", "b"] : List String).Perm ["b", "a"]
      ∧ 2 ≤ (["a", "b"] : List String).length
      ∧ ((cronbach dC5 ["a", "b"]).map fun r => r.alpha)
          = ((cronbach dC5 ["b", "a"]).map fun r => r.alpha)
      ∧ ((cronbach dC5 ["a", "b"]).map fun r => r.item_total_correlations.lookup "a")
          = ((cronbach dC5 ["b", "a"]).map fun r => r.item_total_correlations.lookup "a") := by
  have h := c6_cronbach_order_invariant dC5 ["a", "b"] ["b", "a"]
    (by decide) (by decide)
  exact ⟨by decide, by decide, h.1, h.2 "a"⟩

/-! ## C7 — KMO formula and range -/

theorem map_congr_mem {α β : Type} (l : List α) (f g : α → β)
    (h : ∀ a ∈ l, f a = g a) : l.map f = l.map g := by
  induction l with
  | nil => rfl
  | cons x xs ih =>
    simp only [List.map_cons]
    rw [h x (by simp), ih fun a ha => h a (by simp [ha])]

/-- C7 (counterexample): the claim states the returned global KMO lies in
[0, 1] whenever `kmo_test` succeeds.  On `dIdent` the computed correlation
matrix is exactly the 2×2 identity (invertible, its own inverse — the
trivial oracle echoes it, which here is the true inverse), `kmo_test`
succeeds, but each per-item squared-correlation and squared-partial sum is
0, so each per-item KMO is the float `0.0/0.0 = NaN` and the global KMO is
`NaN` (modelled `none`) — not a number in [0, 1]. -/
theorem c7_kmo_range_refuted :
    kmoCorrMatrix dIdent ["a", "b"] = [[1, 0], [0, 1]]
      ∧ (kmoTest oTriv dIdent ["a", "b"]).isSome = true
      ∧ ((kmoTest oTriv dIdent ["a", "b"]).map fun r => r.kmo_global) = some none := by
  decide

/-- C7 (amended): whenever `kmo_test` succeeds on a correlation matrix with
unit diagonal and every item has a nonzero squaredCorrSum + squaredPartialSum
(the per-item denominators), each per-item KMO is
squaredCorrSum/(squaredCorrSum + squaredPartialSum), the global KMO is the
arithmetic mean of the per-item values, and the global KMO is a number in
[0, 1].  When some denominator is zero the division is `0.0/0.0 = NaN` and
the global KMO is `NaN` (see the counterexample). -/
theorem c7_kmo_formula_and_range_nondegenerate (o : Oracle) (d : Dataset)
    (items : List String) (res : KmoResult)
    (hres : kmoTest o d items = some res)
    (hdiag : ∀ i < items.length, mget (kmoCorrMatrix d items) i i = 1)
    (hden : ∀ Rinv, o.matInv (kmoCorrMatrix d items) = some Rinv →
        ∀ i < items.length,
          kmoDenom (kmoCorrMatrix d items) Rinv items.length i ≠ 0) :
    (∃ Rinv, o.matInv (kmoCorrMatrix d items) = some Rinv
        ∧ res.kmo_per_variable
            = items.zip ((List.range items.length).map fun i =>
                some (kmoSpecPerItem (kmoCorrMatrix d items) Rinv items.length i))
        ∧ res.kmo_global
            = some (meanQ ((List.range items.length).map fun i =>
                kmoSqCorrSum (kmoCorrMatrix d items) items.length i
                  / kmoDenom (kmoCorrMatrix d items) Rinv items.length i)))
      ∧ ∃ g, res.kmo_global = some g ∧ 0 ≤ g ∧ g ≤ 1 := by
  by_cases hc : colsOK d items = true
  · by_cases h0 : items.length = 0
    · simp [kmoTest, hc, h0] at hres
    · by_cases hr : (completeRows d items).length = 0
      · simp [kmoTest, hc, h0, hr] at hres
      · rcases hinv : o.matInv (kmoCorrMatrix d items) with _ | Rinv
        · simp [kmoTest, hc, h0, hr, hinv] at hres
        · simp only [kmoTest, hc, h0, hr, hinv, not_true, not_false_iff,
            if_false, if_true, ite_false, ite_true] at hres
          have hres2 := Option.some.inj hres
          subst hres2
          have hd := hden Rinv hinv
          have hpv : ∀ i ∈ List.range items.length,
              kmoPerItem (kmoCorrMatrix d items) Rinv items.length i
                = some (kmoSqCorrSum (kmoCorrMatrix d items) items.length i
                    / kmoDenom (kmoCorrMatrix d items) Rinv items.length i) := by
            intro i hi
            unfold kmoPerItem
            rw [if_neg (hd i (List.mem_range.mp hi))]
          have hmap : (List.range items.length).map
                (fun i => kmoPerItem (kmoCorrMatrix d items) Rinv items.length i)
              = (List.range items.length).map
                (fun i => some (kmoSqCorrSum (kmoCorrMatrix d items) items.length i
                  / kmoDenom (kmoCorrMatrix d items) Rinv items.length i)) :=
            map_congr_mem _ _ _ hpv
          have hall : ((List.range items.length).map
              (fun i => kmoPerItem (kmoCorrMatrix d items) Rinv items.length i)).all
                Option.isSome = true := by
            rw [hmap]
            simp [List.all_eq_true]
          have hvals : ((List.range items.length).map
                (fun i => kmoPerItem (kmoCorrMatrix d items) Rinv items.length i)).map
                  (fun v => v.getD 0)
              = (List.range items.length).map
                (fun i => kmoSqCorrSum (kmoCorrMatrix d items) items.length i
                  / kmoDenom (kmoCorrMatrix d items) Rinv items.length i) := by
            rw [hmap, List.map_map]
            rfl
          have hterm : ∀ q ∈ (List.range items.length).map
              (fun i => kmoSqCorrSum (kmoCorrMatrix d items) items.length i
                / kmoDenom (kmoCorrMatrix d items) Rinv items.length i),
              0 ≤ q ∧ q ≤ 1 := by
            intro q hq
            obtain ⟨i, hi, rfl⟩ := List.mem_map.mp hq
            have hik : i < items.length := List.mem_range.mp hi
            have hssc : 0 ≤ kmoSqCorrSum (kmoCorrMatrix d items) items.length i := by
              unfold kmoSqCorrSum
              have hle : (mget (kmoCorrMatrix d items) i i) ^ 2
                  ≤ ∑ j ∈ Finset.range items.length,
                      (mget (kmoCorrMatrix d items) i j) ^ 2 :=
                Finset.single_le_sum
                  (f := fun j => (mget (kmoCorrMatrix d items) i j) ^ 2)
                  (fun j _ => sq_nonneg _) (Finset.mem_range.mpr hik)
              rw [hdiag i hik] at hle
              norm_num at hle
              linarith
            have hssp : 0 ≤ kmoSqPartialSum Rinv items.length i := by
              unfold kmoSqPartialSum
              refine Finset.sum_nonneg fun j _ => ?_
              by_cases hji : j = i
              · simp [hji]
              · simp only [hji, if_false]
                exact sq_nonneg _
            have hdpos : 0 < kmoDenom (kmoCorrMatrix d items) Rinv items.length i := by
              have hnn : 0 ≤ kmoDenom (kmoCorrMatrix d items) Rinv items.length i := by
                unfold kmoDenom
                exact add_nonneg hssc hssp
              exact lt_of_le_of_ne hnn (Ne.symm (hd i hik))
            refine ⟨div_nonneg hssc hdpos.le, (div_le_one hdpos).mpr ?_⟩
            unfold kmoDenom
            linarith
          have hs0 : 0 ≤ ((List.range items.length).map
              (fun i => kmoSqCorrSum (kmoCorrMatrix d items) items.length i
                / kmoDenom (kmoCorrMatrix d items) Rinv items.length i)).sum :=
            List.sum_nonneg fun x hx => (hterm x hx).1
          have hsk : ((List.range items.length).map
              (fun i => kmoSqCorrSum (kmoCorrMatrix d items) items.length i
                / kmoDenom (kmoCorrMatrix d items) Rinv items.length i)).sum
              ≤ (items.length : ℚ) := by
            have hb := List.sum_le_card_nsmul ((List.range items.length).map
              (fun i => kmoSqCorrSum (kmoCorrMatrix d items) items.length i
                / kmoDenom (kmoCorrMatrix d items) Rinv items.length i))
              1 (fun x hx => (hterm x hx).2)
            simpa [List.length_map, List.length_range, nsmul_eq_mul] using hb
          have hkpos : 0 < (items.length : ℚ) := by
            exact_mod_cast Nat.pos_of_ne_zero h0
          refine ⟨⟨Rinv, rfl, ?_, ?_⟩, ?_⟩
          · show _ = _
            rw [show (kmoCorrMatrix d items) = kmoCorrMatrix d items from rfl]
            exact congrArg (items.zip ·) hmap
          · show (if _ then _ else _) = _
            rw [if_pos hall, hvals]
            unfold meanQ
            rw [List.length_map, List.length_range]
          · refine ⟨_, ?_, div_nonneg hs0 hkpos.le, (div_le_one hkpos).mpr hsk⟩
            show (if _ then _ else _) = _
            rw [if_pos hall, hvals]
  · simp [kmoTest, hc] at hres

/-- Witness for `c7_kmo_formula_and_range_nondegenerate`: on `dC5` with the
trivial oracle, `kmo_test` succeeds, the correlation matrix [[1,−1],[−1,1]]
has unit diagonal, each per-item denominator is 2 ≠ 0, and the global KMO
is the number 1/2 ∈ [0, 1]. -/
theorem c7_kmo_formula_and_range_nondegenerate_witness :
    kmoTest oTriv dC5 ["a", "b"] = some kmoWitnessRes
      ∧ mget (kmoCorrMatrix dC5 ["a", "b"]) 0 0 = 1
      ∧ mget (kmoCorrMatrix dC5 ["a", "b"]) 1 1 = 1
      ∧ 0 ≤ ((1 : ℚ)/2) ∧ ((1 : ℚ)/2) ≤ 1 := by
  have h := c7_kmo_formula_and_range_nondegenerate oTriv dC5 ["a", "b"]
    kmoWitnessRes (by decide) (by decide)
    (by
      intro Rinv hinv
      obtain rfl := Option.some.inj hinv
      decide)
  obtain ⟨g, hg, h0, h1⟩ := h.2
  have hge : (1 : ℚ)/2 = g := Option.some.inj hg
  exact ⟨by decide, by decide, by decide,
    by rw [hge]; exact h0, by rw [hge]; exact h1⟩

end Reliability
